import Mathlib

/-!
Verification development for the DataSen data-analysis assistant.

The Python sources are embedded shallowly:
  - `src/utils/text_processor.py` (TextProcessor): tokenization is delegated
    to NLTK (an external library), so every function takes the tokenizer(s)
    as explicit parameters; everything downstream of the tokens is embedded
    faithfully.
  - `src/utils/data_loader.py` (DataLoader): a pandas DataFrame is modelled
    as an ordered list of named columns, each either numeric (float cells,
    missing = NaN) or categorical (object cells); a missing cell is `none`.
  - `src/agent/data_agent.py` and `src/app.py`: the LangChain agent run and
    the pandas parsers are external collaborators, passed as parameters that
    either return a value or the message of the exception they raise.

Python floats are modelled exactly over `ℚ` (all quantities the claims touch
are ratios of integers), except the Pearson correlation entries, which
involve a square root and are modelled over `ℝ`.
-/

namespace DataSen

/-! ## Text processing (`src/utils/text_processor.py`) -/

/-- Distinct elements of a list in first-occurrence order: the key order of a
Python dict built by `Counter(tokens)` / by first insertion. -/
def firstOccs : List String → List String
  | [] => []
  | x :: xs => x :: (firstOccs xs).filter (fun y => y != x)

/-- The embedding of `TextProcessor.get_word_frequencies`:
`dict(Counter(self.tokenize_text(text)))`, as the association list underlying
the Python dict — keys in first-occurrence order, each mapped to its
occurrence count. `tok` stands for `self.tokenize_text` (NLTK-based). -/
def get_word_frequencies (tok : String → List String) (text : String) :
    List (String × Nat) :=
  (firstOccs (tok text)).map (fun w => (w, (tok text).count w))

/-- The order used by `sorted(items, key=lambda x: x[1], reverse=True)`:
descending by the numeric second component. -/
def scoreGE (a b : String × Nat) : Prop := b.2 ≤ a.2

instance : DecidableRel scoreGE := fun a b => Nat.decLe b.2 a.2

instance : IsTotal (String × Nat) scoreGE := ⟨fun a b => Nat.le_total b.2 a.2⟩

instance : IsTrans (String × Nat) scoreGE :=
  ⟨fun _ _ _ h1 h2 => Nat.le_trans h2 h1⟩

/-- Python's `sorted(items, key=lambda x: x[1], reverse=True)`: a stable sort,
descending by count. Insertion sort with `scoreGE` places a later element
after earlier elements of equal count, exactly like Python's stable sort. -/
def sortByCountDesc (l : List (String × Nat)) : List (String × Nat) :=
  l.insertionSort scoreGE

/-- The embedding of `TextProcessor.extract_keywords`: the words of
`get_word_frequencies`, sorted by descending count (stable), truncated to
`top_n`. -/
def extract_keywords (tok : String → List String) (text : String)
    (top_n : Nat) : List String :=
  ((sortByCountDesc (get_word_frequencies tok text)).take top_n).map Prod.fst

/-- NLTK tokenization of the spec's keyword example, as `tokenize_text`
computes it: lowercase, drop the English stopwords "the" and "on", lemmatize
(identity on these nouns). -/
def exTok : String → List String := fun t =>
  if t = "the cat sat on the mat the cat ran" then
    ["cat", "sat", "mat", "cat", "ran"]
  else []

/-- The embedding of `TextProcessor.get_text_similarity`: Jaccard similarity
of the two token sets (`set(...)` of the tokens), with the `union > 0` guard;
Python float division of the two integer cardinalities is modelled exactly
over `ℚ`. -/
def get_text_similarity (tok : String → List String) (text1 text2 : String) :
    ℚ :=
  let tokens1 := (tok text1).toFinset
  let tokens2 := (tok text2).toFinset
  let intersection := (tokens1 ∩ tokens2).card
  let union := (tokens1 ∪ tokens2).card
  if 0 < union then (intersection : ℚ) / (union : ℚ) else 0

/-- Score of one sentence in `generate_text_summary`:
`sum(word_freq[token] for token in self.tokenize_text(sentence))`, where
`word_freq = Counter(self.tokenize_text(text))` and a Counter lookup of an
absent key yields 0 (like `List.count`). -/
def sentenceScore (tok : String → List String) (text sentence : String) :
    Nat :=
  ((tok sentence).map (fun t => (tok text).count t)).sum

/-- The `sentence_scores` dict of `generate_text_summary`, as an association
list: Python dict insertion order is the first-occurrence order of the
sentences produced by `nltk.sent_tokenize` (`stok`); a duplicate sentence
overwrites its entry with the same score. -/
def sentence_scores (stok tok : String → List String) (text : String) :
    List (String × Nat) :=
  (firstOccs (stok text)).map (fun s => (s, sentenceScore tok text s))

/-- The `top_sentences` list of `generate_text_summary`:
`sorted(sentence_scores.items(), key=lambda x: x[1], reverse=True)`. -/
def top_sentences (stok tok : String → List String) (text : String) :
    List (String × Nat) :=
  sortByCountDesc (sentence_scores stok tok text)

/-- The summary-selection loop of `generate_text_summary`: walk the scored
sentences, append a sentence while the accumulated sentence length stays at
or under `max_length`, and `break` at the first sentence that would exceed
it. `cur` is the running `current_length`. -/
def pickSummary (max_length : Nat) :
    List (String × Nat) → Nat → List String
  | [], _ => []
  | (s, _) :: rest, cur =>
      if cur + s.length ≤ max_length then
        s :: pickSummary max_length rest (cur + s.length)
      else []

/-- The embedding of `TextProcessor.generate_text_summary`: selected
sentences joined by a single space (`' '.join(summary)`). -/
def generate_text_summary (stok tok : String → List String) (text : String)
    (max_length : Nat) : String :=
  String.intercalate " " (pickSummary max_length (top_sentences stok tok text) 0)

/-- Total character length of a list of sentences, before joining. -/
def sumLens (l : List String) : Nat := (l.map String.length).sum

/-- A tokenizer with the NLTK behavior on the text "the": "the" is an English
stopword, so the non-empty text tokenizes to no tokens at all. -/
def exStopTok : String → List String := fun t => if t = "the" then [] else [t]

/-- NLTK `sent_tokenize` on the two-sentence summary counterexample text. -/
def exSentTok : String → List String := fun t =>
  if t = "Hi there. Go now." then ["Hi there.", "Go now."] else [t]

/-- NLTK `tokenize_text` on the summary counterexample text and on each of
its sentences: "there" and "now" are English stopwords, "hi" and "go" are
kept (and are their own lemmas). -/
def exSumTok : String → List String := fun t =>
  if t = "Hi there. Go now." then ["hi", "go"]
  else if t = "Hi there." then ["hi"]
  else if t = "Go now." then ["go"]
  else []

/-! ## The table model (pandas DataFrame) -/

/-- One column of the in-memory table: numeric (`float64`) or categorical
(`object`) cells; a missing value (NaN) is `none`. These are the two dtypes
`DataLoader` dispatches on (`np.number` vs `object`). -/
inductive Col
  | num (vals : List (Option ℚ))
  | cat (vals : List (Option String))
deriving DecidableEq

/-- A pandas DataFrame: an ordered sequence of named, typed columns. -/
structure Frame where
  cols : List (String × Col)
deriving DecidableEq

/-- Non-missing values of a numeric column. -/
def validQ (v : List (Option ℚ)) : List ℚ := v.filterMap id

/-- Non-missing values of a categorical column. -/
def validS (v : List (Option String)) : List String := v.filterMap id

/-- Number of non-missing values of a column. -/
def validCount : Col → Nat
  | .num v => (validQ v).length
  | .cat v => (validS v).length

/-- Number of missing values of a column (`df[col].isnull().sum()`). -/
def missingCount : Col → Nat
  | .num v => v.countP (fun c => c.isNone)
  | .cat v => v.countP (fun c => c.isNone)

/-! ## Text-column analytics (`TextProcessor.analyze_text_column`) -/

/-- Error cases of `analyze_text_column`. -/
inductive TextColErr
  /-- The `ValueError` raised when the column is absent. -/
  | columnNotFound
  /-- The Python `ZeroDivisionError` raised by `... / total_words`. -/
  | zeroDivision
deriving DecidableEq

/-- The report dict returned by `analyze_text_column`. -/
structure TextReport where
  total_words : Nat
  unique_words : Nat
  most_common_words : List (String × Nat)
  average_word_length : ℚ

/-- Column lookup used by the `if column not in df.columns` check. -/
def lookupCol (F : Frame) (name : String) : Option Col :=
  (F.cols.find? (fun c => c.1 == name)).map Prod.snd

/-- The cell strings produced by `df[column].astype(str)`: the string itself
for object cells, the Python float repr (external formatting, parameter
`fmt`) for numeric cells; a missing cell prints as "nan". -/
def colStrings (fmt : ℚ → String) : Col → List String
  | .cat v => v.map (fun c => match c with | some s => s | none => "nan")
  | .num v => v.map (fun c => match c with | some q => fmt q | none => "nan")

/-- The embedding of `TextProcessor.analyze_text_column`: joins the column
into one text, computes the word-frequency dict, and builds the report; the
final field divides by `total_words`, which in Python raises
`ZeroDivisionError` when there are no tokens. -/
def analyze_text_column (fmt : ℚ → String) (tok : String → List String)
    (F : Frame) (column : String) : Except TextColErr TextReport :=
  match lookupCol F column with
  | none => .error .columnNotFound
  | some c =>
      let all_text := String.intercalate " " (colStrings fmt c)
      let word_freq := get_word_frequencies tok all_text
      let total_words := (word_freq.map Prod.snd).sum
      if total_words = 0 then .error .zeroDivision
      else
        .ok
          { total_words := total_words
            unique_words := word_freq.length
            most_common_words := (sortByCountDesc word_freq).take 10
            average_word_length :=
              ((word_freq.map (fun p => (p.1.length : ℚ) * (p.2 : ℚ))).sum) /
                (total_words : ℚ) }

/-! ## DataLoader (`src/utils/data_loader.py`) -/

/-- The embedding of pandas `Series.median()` on a numeric column: the median
of the non-missing values (middle of the sorted values, or the average of the
two middle ones); on no values pandas returns NaN (`none`), not an error. -/
def medianQ (v : List ℚ) : Option ℚ :=
  let s := List.insertionSort (· ≤ ·) v
  if s.length = 0 then none
  else if s.length % 2 = 1 then some (s.getD (s.length / 2) 0)
  else some ((s.getD (s.length / 2 - 1) 0 + s.getD (s.length / 2) 0) / 2)

/-- The embedding of pandas `Series.mode()[0]` on a categorical column:
`mode()` lists the most frequent non-missing values sorted ascending, so
`[0]` is the least of them; on no values `mode()` is empty and indexing it
raises, modelled as `none`. -/
def modeFirst (v : List String) : Option String :=
  match ((firstOccs v).map (fun w => v.count w)).max? with
  | none => none
  | some m => ((firstOccs v).filter (fun w => v.count w == m)).min?

/-- The embedding of `Series.fillna(value, inplace=True)` on a numeric
column: replaces each missing cell by the value; when the value is itself NaN
(the median of an all-missing column) the fill changes nothing. -/
def fillnaQ (m : Option ℚ) (v : List (Option ℚ)) : List (Option ℚ) :=
  match m with
  | none => v
  | some q => v.map (fun c => some (c.getD q))

/-- The embedding of `Series.fillna(value, inplace=True)` on a categorical
column. -/
def fillnaS (s : String) (v : List (Option String)) : List (Option String) :=
  v.map (fun c => some (c.getD s))

/-- Per-column step of `DataLoader.preprocess_data`: numeric columns are
filled with their median; categorical columns with `mode()[0]`, which raises
(`none`) when every value is missing. -/
def preprocessCol : Col → Option Col
  | .num v => some (.num (fillnaQ (medianQ (validQ v)) v))
  | .cat v =>
      match modeFirst (validS v) with
      | none => none
      | some m => some (.cat (fillnaS m v))

/-- Column-wise pass of `preprocess_data` over the frame. The source runs the
numeric loop before the categorical loop; the columns are independent and the
only failure is the categorical all-missing raise, so a single pass in column
order is equivalent. -/
def preprocessCols : List (String × Col) → Option (List (String × Col))
  | [] => some []
  | c :: rest =>
      match preprocessCol c.2, preprocessCols rest with
      | some c', some rest' => some ((c.1, c') :: rest')
      | _, _ => none

/-- The embedding of `DataLoader.preprocess_data` (`none` = an exception
escaped the imputation loops). -/
def preprocess_data (F : Frame) : Option Frame :=
  (preprocessCols F.cols).map Frame.mk

/-- Whether a column is a categorical column all of whose values are
missing. -/
def catAllMissing : Col → Bool
  | .num _ => false
  | .cat v => (validS v).isEmpty

/-- The `missing_values` entry of `DataLoader.get_data_info`:
`df.isnull().sum().to_dict()`, per-column missing counts. -/
def missing_values (F : Frame) : List (String × Nat) :=
  F.cols.map (fun c => (c.1, missingCount c.2))

/-- The spec's preprocessing example table:
age = [20, 30, NaN, 40], city = ["A", "B", "A", "A"]. -/
def ageCityFrame : Frame :=
  ⟨[("age", Col.num [some 20, some 30, none, some 40]),
    ("city", Col.cat [some "A", some "B", some "A", some "A"])]⟩

/-- The spec's expected preprocessing result: the missing age becomes the
median 30 of [20, 30, 40]; city is unchanged (no missing values). -/
def ageCityFilled : Frame :=
  ⟨[("age", Col.num [some 20, some 30, some 30, some 40]),
    ("city", Col.cat [some "A", some "B", some "A", some "A"])]⟩

/-- The embedding of `os.path.splitext(path)[1]`: the extension of the last
path component, split at its last dot; leading dots of the basename do not
start an extension. -/
def splitextExt (path : String) : String :=
  let bn := (path.toList.reverse.takeWhile (fun c => c != '/')).reverse
  let core := bn.dropWhile (fun c => c == '.')
  let revPre := core.reverse.takeWhile (fun c => c != '.')
  if revPre.length < core.length then String.mk ('.' :: revPre.reverse) else ""

/-- The embedding of `str.lower()` (character-wise lowercasing). -/
def lowerStr (s : String) : String := String.mk (s.toList.map Char.toLower)

/-- The external collaborators of `DataLoader.load_data`: the filesystem
existence check and the three pandas readers, each returning a frame or the
message of the exception it raises. -/
structure FileSystem where
  pathExists : String → Bool
  read_csv : String → Except String Frame
  read_json : String → Except String Frame
  read_excel : String → Except String Frame

/-- Errors escaping `DataLoader.load_data`. -/
inductive LoadErr
  /-- The `FileNotFoundError` raised before the `try` block. -/
  | fileNotFound (msg : String)
  /-- The generic `Exception` raised by the `except` clause, wrapping any
  error raised inside the `try` block — including the `ValueError` for an
  unsupported extension, which the source raises inside its own `try`. -/
  | wrapped (msg : String)
deriving DecidableEq

/-- The embedding of `DataLoader.load_data`: existence check, extension
dispatch inside a `try` whose `except` clause wraps every failure into a
generic `Exception` message carrying the path and the original message. -/
def load_data (fs : FileSystem) (file_path : String) : Except LoadErr Frame :=
  if fs.pathExists file_path = false then
    .error (.fileNotFound ("File not found: " ++ file_path))
  else
    let file_ext := lowerStr (splitextExt file_path)
    let attempt : Except String Frame :=
      if file_ext = ".csv" then fs.read_csv file_path
      else if file_ext = ".json" then fs.read_json file_path
      else if file_ext = ".xlsx" ∨ file_ext = ".xls" then
        fs.read_excel file_path
      else .error ("Unsupported file format: " ++ file_ext)
    match attempt with
    | .ok df => .ok df
    | .error e =>
        .error (.wrapped ("Error loading file " ++ file_path ++ ": " ++ e))

/-- A filesystem on which every path exists and every reader raises "boom". -/
def fsAllExist : FileSystem :=
  ⟨fun _ => true, fun _ => .error "boom", fun _ => .error "boom",
    fun _ => .error "boom"⟩

/-- A filesystem on which no path exists. -/
def fsNoneExist : FileSystem :=
  ⟨fun _ => false, fun _ => .error "boom", fun _ => .error "boom",
    fun _ => .error "boom"⟩

/-! ## Correlation (`DataAnalysisTool._run`, `data[numeric_cols].corr()`) -/

/-- The rows at which both columns are non-missing (the pairwise-complete
mask pandas `nancorr` applies per column pair). -/
def validPairs : List (Option ℚ) → List (Option ℚ) → List (ℚ × ℚ)
  | some a :: x, some b :: y => (a, b) :: validPairs x y
  | _ :: x, _ :: y => validPairs x y
  | _, _ => []

/-- Mean of a list of rationals (used only on non-empty lists). -/
def meanQ (v : List ℚ) : ℚ := v.sum / (v.length : ℚ)

/-- Sum of squared deviations from the mean — the variance numerator; it is
zero exactly for constant (zero-variance) data. -/
def devSq (v : List ℚ) : ℚ := (v.map (fun a => (a - meanQ v) ^ 2)).sum

/-- Sum of products of deviations — the Pearson numerator. -/
def devProd (pts : List (ℚ × ℚ)) : ℚ :=
  (pts.map (fun p =>
    (p.1 - meanQ (pts.map Prod.fst)) * (p.2 - meanQ (pts.map Prod.snd)))).sum

/-- One entry of `data[numeric_cols].corr()`: the Pearson correlation of two
columns over their pairwise-complete rows; `none` is the NaN pandas reports
when there are no such rows or when a zero variance leaves the coefficient
undefined (pandas never coerces it to 0). -/
noncomputable def corrEntry (x y : List (Option ℚ)) : Option ℝ :=
  let pts := validPairs x y
  let vx := devSq (pts.map Prod.fst)
  let vy := devSq (pts.map Prod.snd)
  if pts.isEmpty ∨ vx = 0 ∨ vy = 0 then none
  else some ((devProd pts : ℝ) / Real.sqrt ((vx : ℝ) * (vy : ℝ)))

/-- The numeric columns of a frame, in order
(`data.select_dtypes(include=['int64', 'float64'])`). -/
def numericCols (F : Frame) : List (String × List (Option ℚ)) :=
  F.cols.filterMap (fun nc =>
    match nc.2 with
    | .num v => some (nc.1, v)
    | .cat _ => none)

/-- The correlation report of `DataAnalysisTool._run`: one row per numeric
column, each row holding the named entries against every numeric column. -/
noncomputable def corrReport (F : Frame) :
    List (String × List (String × Option ℝ)) :=
  (numericCols F).map (fun ci =>
    (ci.1, (numericCols F).map (fun cj => (cj.1, corrEntry ci.2 cj.2))))

/-! ## Orchestrator (`src/agent/data_agent.py`) and web glue (`src/app.py`) -/

/-- The embedding of `DataAnalysisTool._run`: the `try` body (pandas
describe/corr/insights rendering — external formatting) is the parameter
`body`; the `except` clause converts any raised exception into the string
"Error in analysis: " followed by its message. -/
def tool_run (body : String → Frame → Except String String) (query : String)
    (data : Frame) : String :=
  match body query data with
  | .ok r => r
  | .error e => "Error in analysis: " ++ e

/-- The embedding of `DataAgent.analyze`: inside one `try`, optionally read
the CSV at `data_path`, then run the LangChain agent (external collaborator
`agentRun`); the `except` clause converts any raised exception into
"Error in analysis: " followed by its message. -/
def analyze (read_csv : String → Except String Frame)
    (agentRun : String → Except String String) (query : String)
    (data_path : Option String) : String :=
  let attempt : Except String String :=
    match data_path with
    | some p =>
        match read_csv p with
        | .error e => .error e
        | .ok _ => agentRun query
    | none => agentRun query
  match attempt with
  | .ok r => r
  | .error e => "Error in analysis: " ++ e

/-- The fixed message `index` returns when no dataset is loaded. -/
def noDataMsg : String := "Please upload a CSV file first."

/-- The POST branch of `app.index`: given the session chat, the session data
path, and the submitted question, returns the updated chat (which the page
then renders) and whether `agent.analyze` was invoked. An absent or empty
question is falsy in Python, so it changes nothing. -/
def index_post (analyze_fn : String → String → String)
    (chat : List (String × String)) (data_path : Option String)
    (question : Option String) : List (String × String) × Bool :=
  match question with
  | none => (chat, false)
  | some q =>
      if q = "" then (chat, false)
      else
        match data_path with
        | some p => (chat ++ [(q, analyze_fn q p)], true)
        | none => (chat ++ [(q, noDataMsg)], false)

/-! ## Theorems -/

/-- C3 counterexample: on an Idle orchestrator (no data path) with an empty
prior history, submitting a question leaves the history non-empty — `index`
appends the (question, fixed-message) turn even when no dataset is loaded, so
the history does not stay unchanged (and no tool is invoked). -/
theorem C3_counterexample :
    (index_post (fun _ _ => "") [] none (some "What is the mean age?")).1 ≠ []
    ∧ (index_post (fun _ _ => "") [] none (some "What is the mean age?")).2
        = false := by
  constructor
  · simp [index_post]
  · rfl

/-- C3 (amended): in Idle (no data path), a non-empty question is answered
with the fixed no-dataset message, no analytics tool is invoked, and the
(question, fixed-message) pair is appended to the conversation history
(rather than the history being left unchanged). -/
theorem C3_idle_ask (analyze_fn : String → String → String)
    (chat : List (String × String)) (q : String) (hq : q ≠ "") :
    index_post analyze_fn chat none (some q) =
      (chat ++ [(q, noDataMsg)], false) := by
  simp [index_post, hq]

/-- C3 witness: the amended theorem applied at a concrete question. -/
theorem C3_idle_ask_witness :
    ("hello" : String) ≠ ""
    ∧ index_post (fun _ _ => "") [("a", "b")] none (some "hello") =
        ([("a", "b"), ("hello", noDataMsg)], false) :=
  ⟨by decide, C3_idle_ask (fun _ _ => "") [("a", "b")] "hello" (by decide)⟩

/-- C4: the code contradicts its own docstring ("Raises ValueError: If file
format is not supported"): for an existing path with an unsupported
extension, the `ValueError` is raised inside the `try` block and is therefore
caught by the function's own `except` clause and re-raised wrapped in the
generic load-error message — not raised as an unwrapped unsupported-format
error. The file-not-found check (raised before the `try`) and the wrapping of
genuine parser failures behave as claimed. -/
theorem C4_unsupported_extension_is_wrapped :
    load_data fsAllExist "data.txt" =
      .error (.wrapped "Error loading file data.txt: Unsupported file format: .txt")
    ∧ load_data fsNoneExist "data.csv" =
        .error (.fileNotFound "File not found: data.csv")
    ∧ load_data fsAllExist "data.csv" =
        .error (.wrapped "Error loading file data.csv: boom") := by
  refine ⟨?_, rfl, ?_⟩ <;> rfl

/-- C9 counterexample: a table whose only column is numeric and entirely
missing. pandas `median()` of no values is NaN and `fillna(NaN)` changes
nothing, so `preprocess_data` returns the table unchanged — it does not raise
in the all-missing numeric case. -/
theorem C9_counterexample :
    preprocess_data (Frame.mk [("x", Col.num [none, none])]) =
      some (Frame.mk [("x", Col.num [none, none])])
    ∧ validCount (Col.num [none, none]) = 0 := ⟨rfl, rfl⟩

/-- C9 (amended): `preprocess_data` raises only for an all-missing
categorical column (`mode()[0]` indexes an empty mode series); an all-missing
numeric column is silently left all-missing (median NaN, no-op fill). -/
theorem C9_all_missing_categorical_raises (F : Frame)
    (h : ∃ p ∈ F.cols, catAllMissing p.2 = true) :
    preprocess_data F = none := by
  suffices hc : ∀ l : List (String × Col),
      (∃ p ∈ l, catAllMissing p.2 = true) → preprocessCols l = none by
    unfold preprocess_data
    rw [hc F.cols h]
    rfl
  intro l
  induction l with
  | nil => rintro ⟨p, hp, _⟩; exact absurd hp (List.not_mem_nil p)
  | cons c rest ih =>
      rintro ⟨p, hp, hcat⟩
      rcases List.mem_cons.mp hp with rfl | hrest
      · obtain ⟨v, hv⟩ : ∃ v, p.2 = Col.cat v ∧ validS v = [] := by
          cases hc2 : p.2 with
          | num _ => rw [hc2] at hcat; simp [catAllMissing] at hcat
          | cat v =>
              refine ⟨v, rfl, ?_⟩
              rw [hc2] at hcat
              simpa [catAllMissing, List.isEmpty_iff] using hcat
        rw [preprocessCols, hv.1]
        have hmode : modeFirst (validS v) = none := by
          rw [hv.2]; rfl
        simp [preprocessCol, hmode]
      · rw [preprocessCols, ih ⟨p, hrest, hcat⟩]
        cases preprocessCol c.2 <;> rfl

/-- C9 witness: the amended theorem applied to a table whose only column is
an all-missing categorical column. -/
theorem C9_all_missing_categorical_raises_witness :
    (∃ p ∈ (Frame.mk [("y", Col.cat [none, none])]).cols,
      catAllMissing p.2 = true)
    ∧ preprocess_data (Frame.mk [("y", Col.cat [none, none])]) = none :=
  ⟨⟨("y", Col.cat [none, none]), by simp, rfl⟩,
    C9_all_missing_categorical_raises _
      ⟨("y", Col.cat [none, none]), by simp, rfl⟩⟩

/-- C2 counterexample: "the" is a non-empty text, but it tokenizes to no
tokens at all (it is an English stopword), so both token sets are empty, the
union has size 0, and `get_text_similarity` returns 0 rather than 1. -/
theorem C2_counterexample :
    get_text_similarity exStopTok "the" "the" = 0 ∧ ("the" : String) ≠ "" :=
  ⟨rfl, by decide⟩

/-- C2 (amended): similarity is Jaccard similarity over the token sets:
`similarity(a, a) = 1` for every text `a` whose token sequence is non-empty
(rather than every non-empty text); `similarity("", "") = 0` (the tokenizer
yields no tokens on empty input, so the union has size 0 and the guard avoids
dividing by zero); and similarity is symmetric. -/
theorem C2_similarity_jaccard (tok : String → List String) (a b : String) :
    (tok a ≠ [] → get_text_similarity tok a a = 1)
    ∧ (tok "" = [] → get_text_similarity tok "" "" = 0)
    ∧ get_text_similarity tok a b = get_text_similarity tok b a := by
  refine ⟨?_, ?_, ?_⟩
  · intro h
    obtain ⟨x, hx⟩ := List.exists_mem_of_ne_nil _ h
    have hpos : 0 < (tok a).toFinset.card :=
      Finset.card_pos.mpr ⟨x, List.mem_toFinset.mpr hx⟩
    show (if 0 < ((tok a).toFinset ∪ (tok a).toFinset).card then
        ((((tok a).toFinset ∩ (tok a).toFinset).card : ℚ) /
          (((tok a).toFinset ∪ (tok a).toFinset).card : ℚ)) else 0) = 1
    rw [Finset.inter_self, Finset.union_self, if_pos hpos]
    exact div_self (Nat.cast_ne_zero.mpr hpos.ne')
  · intro h
    show (if 0 < ((tok "").toFinset ∪ (tok "").toFinset).card then
        ((((tok "").toFinset ∩ (tok "").toFinset).card : ℚ) /
          (((tok "").toFinset ∪ (tok "").toFinset).card : ℚ)) else 0) = 0
    rw [h]
    rfl
  · show (if 0 < ((tok a).toFinset ∪ (tok b).toFinset).card then
        ((((tok a).toFinset ∩ (tok b).toFinset).card : ℚ) /
          (((tok a).toFinset ∪ (tok b).toFinset).card : ℚ)) else 0) =
      (if 0 < ((tok b).toFinset ∪ (tok a).toFinset).card then
        ((((tok b).toFinset ∩ (tok a).toFinset).card : ℚ) /
          (((tok b).toFinset ∪ (tok a).toFinset).card : ℚ)) else 0)
    rw [Finset.inter_comm, Finset.union_comm]

/-- C2 witness: the amended theorem applied at a concrete tokenizer and
texts. -/
theorem C2_similarity_jaccard_witness :
    exSumTok "Hi there." ≠ []
    ∧ get_text_similarity exSumTok "Hi there." "Hi there." = 1
    ∧ exSumTok "" = []
    ∧ get_text_similarity exSumTok "" "" = 0
    ∧ get_text_similarity exSumTok "Hi there." "Go now." =
        get_text_similarity exSumTok "Go now." "Hi there." :=
  ⟨by decide, (C2_similarity_jaccard exSumTok "Hi there." "Go now.").1 (by decide),
    by decide, (C2_similarity_jaccard exSumTok "Hi there." "Go now.").2.1 (by decide),
    (C2_similarity_jaccard exSumTok "Hi there." "Go now.").2.2⟩

/-- C1 counterexample: the text has two sentences of lengths 9 and 7 with
equal scores; with budget 16 the loop accepts both (9 + 7 = 16 is within the
budget it tracks), but the returned string joins them with a space and has
length 17 — the returned text exceeds `max_length`. -/
theorem C1_counterexample :
    generate_text_summary exSentTok exSumTok "Hi there. Go now." 16 =
      "Hi there. Go now."
    ∧ 16 < (generate_text_summary exSentTok exSumTok "Hi there. Go now." 16).length :=
  ⟨rfl, by decide⟩

/-- Elements of `firstOccs xs` come from `xs`. -/
theorem firstOccs_subset : ∀ xs : List String, firstOccs xs ⊆ xs
  | [] => fun _ h => h
  | x :: xs => by
      rw [firstOccs]
      intro y hy
      rcases List.mem_cons.mp hy with rfl | hyf
      · exact List.mem_cons_self _ _
      · exact List.mem_cons_of_mem _
          (firstOccs_subset xs (List.mem_filter.mp hyf).1)

/-- The summary loop keeps the accumulated sentence length within the
budget. -/
theorem pickSummary_budget (L : Nat) :
    ∀ (l : List (String × Nat)) (cur : Nat), cur ≤ L →
      cur + sumLens (pickSummary L l cur) ≤ L
  | [], cur, h => by simpa [pickSummary, sumLens] using h
  | (s, _) :: rest, cur, h => by
      rw [pickSummary]
      by_cases hle : cur + s.length ≤ L
      · rw [if_pos hle]
        have ih := pickSummary_budget L rest (cur + s.length) hle
        simp only [sumLens, List.map_cons, List.sum_cons] at ih ⊢
        omega
      · rw [if_neg hle]
        simpa [sumLens] using h

/-- Every sentence the summary loop keeps is one of the scored sentences. -/
theorem pickSummary_subset (L : Nat) :
    ∀ (l : List (String × Nat)) (cur : Nat),
      pickSummary L l cur ⊆ l.map Prod.fst
  | [], cur => by simp [pickSummary]
  | (s, _) :: rest, cur => by
      rw [pickSummary]
      by_cases hle : cur + s.length ≤ L
      · rw [if_pos hle]
        intro x hx
        rcases List.mem_cons.mp hx with rfl | hx'
        · exact List.mem_cons_self _ _
        · exact List.mem_cons_of_mem _
            (pickSummary_subset L rest (cur + s.length) hx')
      · rw [if_neg hle]
        intro x hx
        exact absurd hx (List.not_mem_nil x)

/-- The summary loop takes a prefix of the scored sentences and `break`s at
the first sentence that would exceed the budget. -/
theorem pickSummary_spec (L : Nat) :
    ∀ (l : List (String × Nat)) (cur : Nat),
      ∃ k, pickSummary L l cur = (l.take k).map Prod.fst ∧
        ∀ x, (l.drop k).head? = some x →
          L < cur + sumLens (pickSummary L l cur) + x.1.length
  | [], cur => ⟨0, by simp [pickSummary], by simp⟩
  | (s, c) :: rest, cur => by
      by_cases hle : cur + s.length ≤ L
      · obtain ⟨k, hk, hstop⟩ := pickSummary_spec L rest (cur + s.length)
        refine ⟨k + 1, ?_, ?_⟩
        · rw [pickSummary, if_pos hle, List.take_succ_cons, List.map_cons, hk]
        · intro x hx
          rw [List.drop_succ_cons] at hx
          have hs := hstop x hx
          rw [pickSummary, if_pos hle]
          simp only [sumLens, List.map_cons, List.sum_cons] at hs ⊢
          omega
      · refine ⟨0, by rw [pickSummary, if_neg hle]; simp, ?_⟩
        intro x hx
        rw [List.drop_zero] at hx
        have hxe : x = (s, c) := ((by simpa using hx : (s, c) = x)).symm
        rw [pickSummary, if_neg hle]
        subst hxe
        simp only [sumLens, List.map_nil, List.sum_nil]
        omega

/-- C1 (amended): `generate_text_summary` joins the selected sentences with
single spaces, and the selection (not the joined string) respects the budget:
the total character length of the selected sentences is at most `max_length`
— the returned string may exceed `max_length` by the one-space separators, as
the counterexample shows. Every selected sentence is a whole sentence of the
input; the scored sentences are considered in descending score order; and the
selection is the prefix of that order that stops at the first sentence that
would exceed the budget. -/
theorem C1_summarize_properties (stok tok : String → List String)
    (text : String) (L : Nat) :
    generate_text_summary stok tok text L =
      String.intercalate " " (pickSummary L (top_sentences stok tok text) 0)
    ∧ sumLens (pickSummary L (top_sentences stok tok text) 0) ≤ L
    ∧ pickSummary L (top_sentences stok tok text) 0 ⊆ stok text
    ∧ ((top_sentences stok tok text).map Prod.snd).Sorted (fun a b => b ≤ a)
    ∧ ∃ k, pickSummary L (top_sentences stok tok text) 0 =
        ((top_sentences stok tok text).take k).map Prod.fst ∧
        ∀ x, ((top_sentences stok tok text).drop k).head? = some x →
          L < sumLens (pickSummary L (top_sentences stok tok text) 0) +
            x.1.length := by
  refine ⟨rfl, ?_, ?_, ?_, ?_⟩
  · simpa using pickSummary_budget L (top_sentences stok tok text) 0
      (Nat.zero_le L)
  · intro x hx
    have hx' := pickSummary_subset L (top_sentences stok tok text) 0 hx
    obtain ⟨p, hp, rfl⟩ := List.mem_map.mp hx'
    have hp' : p ∈ sentence_scores stok tok text :=
      (List.mem_insertionSort scoreGE).mp hp
    obtain ⟨s, hs, rfl⟩ := List.mem_map.mp hp'
    exact firstOccs_subset _ hs
  · rw [List.Sorted, List.pairwise_map]
    exact List.sorted_insertionSort scoreGE (sentence_scores stok tok text)
  · obtain ⟨k, hk, hstop⟩ :=
      pickSummary_spec L (top_sentences stok tok text) 0
    exact ⟨k, hk, fun x hx => by simpa using hstop x hx⟩

/-- C1 witness: the amended theorem applied at the counterexample inputs. -/
theorem C1_summarize_properties_witness :
    sumLens (pickSummary 16 (top_sentences exSentTok exSumTok
      "Hi there. Go now.") 0) ≤ 16 :=
  (C1_summarize_properties exSentTok exSumTok "Hi there. Go now." 16).2.1

/-- Inserting into a sorted list preserves the stability invariant: every
pair of the result is in relation, and on ties keeps the input order `S`. -/
theorem pairwise_orderedInsert_stable {α : Type} (r : α → α → Prop)
    [DecidableRel r] [IsTotal α r] [IsTrans α r] (S : α → α → Prop) (a : α) :
    ∀ m : List α, m.Sorted r →
      m.Pairwise (fun x y => r x y ∧ (r y x → S x y)) →
      (∀ x ∈ m, S a x) →
      (m.orderedInsert r a).Pairwise (fun x y => r x y ∧ (r y x → S x y))
  | [], _, _, _ => by simp [List.orderedInsert]
  | b :: t, hsort, hpair, hS => by
      rw [List.orderedInsert]
      by_cases hab : r a b
      · rw [if_pos hab]
        refine List.pairwise_cons.mpr ⟨?_, hpair⟩
        intro y hy
        rcases List.mem_cons.mp hy with rfl | hyt
        · exact ⟨hab, fun _ => hS _ (List.mem_cons_self _ _)⟩
        · exact ⟨IsTrans.trans _ _ _ hab (List.rel_of_sorted_cons hsort y hyt),
            fun _ => hS _ (List.mem_cons_of_mem _ hyt)⟩
      · rw [if_neg hab]
        refine List.pairwise_cons.mpr
          ⟨?_, pairwise_orderedInsert_stable r S a t hsort.of_cons
            (List.pairwise_cons.mp hpair).2
            (fun x hx => hS x (List.mem_cons_of_mem _ hx))⟩
        intro y hy
        rcases (List.mem_orderedInsert r).mp hy with hya | hyt
        · rw [hya]
          exact ⟨(IsTotal.total (r := r) a b).resolve_left hab,
            fun hr => (hab hr).elim⟩
        · exact (List.pairwise_cons.mp hpair).1 y hyt

/-- Insertion sort with a total preorder is stable: every pair of the output
is in sort relation, and any tie keeps the input order `S`. -/
theorem pairwise_insertionSort_stable {α : Type} (r : α → α → Prop)
    [DecidableRel r] [IsTotal α r] [IsTrans α r] (S : α → α → Prop) :
    ∀ l : List α, l.Pairwise S →
      (l.insertionSort r).Pairwise (fun x y => r x y ∧ (r y x → S x y))
  | [], _ => by simp [List.insertionSort]
  | a :: t, hp => by
      rw [List.insertionSort]
      exact pairwise_orderedInsert_stable r S a _
        (List.sorted_insertionSort r t)
        (pairwise_insertionSort_stable r S t (List.pairwise_cons.mp hp).2)
        (fun x hx => (List.pairwise_cons.mp hp).1 x
          ((List.mem_insertionSort r).mp hx))

/-- Every list is pairwise ordered by the two-element-sublist relation: for
any earlier element `x` and later element `y`, the pair `[x, y]` occurs in
the list in that order. -/
theorem pairwise_sublist_pair {α : Type} :
    ∀ l : List α, l.Pairwise (fun x y => [x, y].Sublist l)
  | [] => List.Pairwise.nil
  | a :: t => by
      refine List.pairwise_cons.mpr ⟨?_, ?_⟩
      · intro y hy
        exact (List.singleton_sublist.mpr hy).cons₂ a
      · exact (pairwise_sublist_pair t).imp (fun h => h.cons a)

/-- C6: `extract_keywords` returns the first `top_n` entries of the word
frequencies sorted by descending count, where ties are broken by the
first-encountered order of the frequency dict (Python's stable sort): in the
sorted list, any later entry has a strictly smaller count, or an equal count
and the two entries occur in the frequency list in the same order. On the
spec's example token stream the result with `top_n = 2` is
`["cat", "sat"]`. -/
theorem C6_extract_keywords_ranking (tok : String → List String)
    (text : String) (top_n : Nat) :
    extract_keywords tok text top_n =
      ((sortByCountDesc (get_word_frequencies tok text)).take top_n).map
        Prod.fst
    ∧ (sortByCountDesc (get_word_frequencies tok text)).Perm
        (get_word_frequencies tok text)
    ∧ (sortByCountDesc (get_word_frequencies tok text)).Pairwise
        (fun a b => b.2 < a.2 ∨ (a.2 = b.2 ∧
          [a, b].Sublist (get_word_frequencies tok text)))
    ∧ extract_keywords exTok "the cat sat on the mat the cat ran" 2 =
        ["cat", "sat"] := by
  refine ⟨rfl, List.perm_insertionSort scoreGE _, ?_, rfl⟩
  have h := pairwise_insertionSort_stable scoreGE
    (fun x y => [x, y].Sublist (get_word_frequencies tok text))
    (get_word_frequencies tok text)
    (pairwise_sublist_pair (get_word_frequencies tok text))
  refine h.imp ?_
  intro a b hab
  rcases hab with ⟨h1, h2⟩
  rcases Nat.lt_or_ge b.2 a.2 with hlt | hge
  · exact Or.inl hlt
  · exact Or.inr ⟨Nat.le_antisymm hge h1, h2 hge⟩

/-- On a column with at least one value, `median()` is an actual number. -/
theorem medianQ_isSome (v : List ℚ) (h : v ≠ []) : (medianQ v).isSome := by
  unfold medianQ
  have hlen : (List.insertionSort (· ≤ ·) v).length = v.length :=
    List.length_insertionSort _ _
  dsimp only
  split_ifs with h1 h2
  · exact absurd (List.length_eq_zero.mp (hlen ▸ h1)) h
  · rfl
  · rfl

/-- A numeric fill with an actual number leaves no missing cell. -/
theorem missingCount_fillnaQ (q : ℚ) (v : List (Option ℚ)) :
    missingCount (.num (fillnaQ (some q) v)) = 0 := by
  rw [missingCount, fillnaQ, List.countP_eq_zero]
  intro a ha
  obtain ⟨c, _, rfl⟩ := List.mem_map.mp ha
  simp

/-- A categorical fill leaves no missing cell. -/
theorem missingCount_fillnaS (s : String) (v : List (Option String)) :
    missingCount (.cat (fillnaS s v)) = 0 := by
  rw [missingCount, fillnaS, List.countP_eq_zero]
  intro a ha
  obtain ⟨c, _, rfl⟩ := List.mem_map.mp ha
  simp

/-- Per-column round trip: if preprocessing the column succeeds and the
column had at least one non-missing value, the result has none missing. -/
theorem preprocessCol_missing (c c' : Col) (h : preprocessCol c = some c')
    (hv : 0 < validCount c) : missingCount c' = 0 := by
  cases c with
  | num v =>
      have hne : validQ v ≠ [] := by
        intro e
        rw [validCount, e] at hv
        exact absurd hv (by simp)
      obtain ⟨m, hm⟩ := Option.isSome_iff_exists.mp (medianQ_isSome _ hne)
      rw [preprocessCol, hm] at h
      cases h
      exact missingCount_fillnaQ m v
  | cat v =>
      rw [preprocessCol] at h
      cases hm : modeFirst (validS v) with
      | none => rw [hm] at h; cases h
      | some m =>
          rw [hm] at h
          cases h
          exact missingCount_fillnaS m v

/-- Column-wise round trip over the whole column list. -/
theorem preprocessCols_spec :
    ∀ l l' : List (String × Col), preprocessCols l = some l' →
      l'.length = l.length ∧
      ∀ i (hi : i < l.length) (hi' : i < l'.length),
        (l'.get ⟨i, hi'⟩).1 = (l.get ⟨i, hi⟩).1 ∧
        (0 < validCount (l.get ⟨i, hi⟩).2 →
          missingCount (l'.get ⟨i, hi'⟩).2 = 0)
  | [], l', h => by
      cases h
      exact ⟨rfl, fun i hi _ => absurd hi (by simp)⟩
  | c :: rest, l', h => by
      rw [preprocessCols] at h
      cases hc : preprocessCol c.2 with
      | none => rw [hc] at h; cases h
      | some c' =>
          cases hr : preprocessCols rest with
          | none => rw [hc, hr] at h; cases h
          | some rest' =>
              rw [hc, hr] at h
              cases h
              obtain ⟨hlen, hidx⟩ := preprocessCols_spec rest rest' hr
              refine ⟨by simpa using hlen, ?_⟩
              intro i hi hi'
              cases i with
              | zero => exact ⟨rfl, fun hv => preprocessCol_missing c.2 c' hc hv⟩
              | succ j =>
                  exact hidx j (Nat.lt_of_succ_lt_succ hi)
                    (Nat.lt_of_succ_lt_succ hi')

/-- C5: after `preprocess_data` succeeds (numeric missing imputed by the
column median, categorical missing by the column mode), every column of the
input that had at least one non-missing value reports a missing-value count
of zero in the `missing_values` entry of `get_data_info`. -/
theorem C5_preprocess_profile (F F' : Frame) (h : preprocess_data F = some F')
    (i : Nat) (hi : i < F.cols.length)
    (hv : 0 < validCount (F.cols.get ⟨i, hi⟩).2) :
    ∃ hi' : i < F'.cols.length,
      (F'.cols.get ⟨i, hi'⟩).1 = (F.cols.get ⟨i, hi⟩).1
      ∧ missingCount (F'.cols.get ⟨i, hi'⟩).2 = 0
      ∧ ((F.cols.get ⟨i, hi⟩).1, 0) ∈ missing_values F' := by
  rw [preprocess_data] at h
  cases hc : preprocessCols F.cols with
  | none => rw [hc] at h; cases h
  | some l' =>
      rw [hc] at h
      cases h
      obtain ⟨hlen, hidx⟩ := preprocessCols_spec F.cols l' hc
      have hi' : i < l'.length := hlen ▸ hi
      obtain ⟨hname, hmiss⟩ := hidx i hi hi'
      refine ⟨hi', hname, hmiss hv, ?_⟩
      refine List.mem_map.mpr ⟨l'.get ⟨i, hi'⟩, List.get_mem _ _ _, ?_⟩
      rw [hname, hmiss hv]

/-- C5 witness: the theorem applied to the spec's example table; the age
column is imputed with the median 30 and the profile of the result reports
zero missing values for it. -/
theorem C5_preprocess_profile_witness :
    preprocess_data ageCityFrame = some ageCityFilled
    ∧ ("age", 0) ∈ missing_values ageCityFilled := by
  have h := C5_preprocess_profile ageCityFrame ageCityFilled rfl 0
    (by decide) (by decide)
  obtain ⟨hi', _, _, hmem⟩ := h
  exact ⟨rfl, hmem⟩

/-- Swapping the two columns transposes the pairwise-complete rows. -/
theorem validPairs_swap : ∀ x y : List (Option ℚ),
    validPairs y x = (validPairs x y).map Prod.swap
  | [], [] => rfl
  | [], _ :: _ => by simp [validPairs]
  | _ :: _, [] => by simp [validPairs]
  | some a :: x, some b :: y => by
      simp [validPairs, validPairs_swap x y]
  | some a :: x, none :: y => by
      simp [validPairs, validPairs_swap x y]
  | none :: x, some b :: y => by
      simp [validPairs, validPairs_swap x y]
  | none :: x, none :: y => by
      simp [validPairs, validPairs_swap x y]

/-- Against itself, the pairwise-complete rows are the non-missing values,
doubled. -/
theorem validPairs_self : ∀ x : List (Option ℚ),
    validPairs x x = (validQ x).map (fun a => (a, a))
  | [] => rfl
  | some a :: x => by simp [validPairs, validQ, validPairs_self x]
  | none :: x => by
      simpa [validPairs, validQ] using validPairs_self x

/-- First components of the pairwise-complete rows are non-missing values of
the first column. -/
theorem validPairs_fst_mem : ∀ (x y : List (Option ℚ)) (p : ℚ × ℚ),
    p ∈ validPairs x y → p.1 ∈ validQ x
  | [], _, p, h => absurd h (by simp [validPairs])
  | _ :: _, [], p, h => absurd h (by simp [validPairs])
  | some a :: x, some b :: y, p, h => by
      rcases List.mem_cons.mp h with rfl | h'
      · simp [validQ]
      · simpa [validQ] using Or.inr (validPairs_fst_mem x y p h')
  | some a :: x, none :: y, p, h => by
      simpa [validQ] using Or.inr (validPairs_fst_mem x y p h)
  | none :: x, _ :: y, p, h => by
      simpa [validQ] using validPairs_fst_mem x y p h

/-- The sum of squared deviations is non-negative. -/
theorem devSq_nonneg (v : List ℚ) : 0 ≤ devSq v := by
  refine List.sum_nonneg ?_
  intro a ha
  obtain ⟨x, _, rfl⟩ := List.mem_map.mp ha
  positivity

/-- Constant data has zero squared-deviation sum. -/
theorem devSq_of_const (v : List ℚ) (h : ∀ a ∈ v, ∀ b ∈ v, a = b) :
    devSq v = 0 := by
  cases v with
  | nil => rfl
  | cons a t =>
      have hmem : ∀ x ∈ a :: t, x = a := fun x hx =>
        h x hx a (List.mem_cons_self a t)
      have hsum : (a :: t).sum = (a :: t).length • a :=
        List.sum_eq_card_nsmul _ a hmem
      have hmean : meanQ (a :: t) = a := by
        rw [meanQ, hsum, nsmul_eq_mul]
        exact mul_div_cancel_left₀ a
          (Nat.cast_ne_zero.mpr (List.length_cons a t ▸ Nat.succ_ne_zero _))
      refine List.sum_eq_zero ?_
      intro x hx
      obtain ⟨b, hb, rfl⟩ := List.mem_map.mp hx
      rw [hmean, hmem b hb, sub_self]
      exact zero_pow (by norm_num)

/-- The Pearson numerator is symmetric under transposition. -/
theorem devProd_swap (pts : List (ℚ × ℚ)) :
    devProd (pts.map Prod.swap) = devProd pts := by
  have hfst : (pts.map Prod.swap).map Prod.fst = pts.map Prod.snd := by
    simp [Function.comp]
  have hsnd : (pts.map Prod.swap).map Prod.snd = pts.map Prod.fst := by
    simp [Function.comp]
  rw [devProd, hfst, hsnd, devProd, List.map_map]
  refine congrArg List.sum (List.map_congr_left ?_)
  intro p _
  simp [mul_comm]

/-- On the diagonal the Pearson numerator is the squared-deviation sum. -/
theorem devProd_diag (v : List ℚ) :
    devProd (v.map (fun a => (a, a))) = devSq v := by
  have hfst : (v.map (fun a : ℚ => (a, a))).map Prod.fst = v := by
    rw [List.map_map]
    exact (List.map_congr_left fun a _ => rfl).trans (List.map_id v)
  have hsnd : (v.map (fun a : ℚ => (a, a))).map Prod.snd = v := by
    rw [List.map_map]
    exact (List.map_congr_left fun a _ => rfl).trans (List.map_id v)
  rw [devProd, hfst, hsnd, devSq, List.map_map]
  refine congrArg List.sum (List.map_congr_left ?_)
  intro a _
  simp [pow_two]

/-- The correlation entry is symmetric. -/
theorem corrEntry_symm (x y : List (Option ℚ)) :
    corrEntry y x = corrEntry x y := by
  unfold corrEntry
  dsimp only
  rw [validPairs_swap x y]
  have hfst : ((validPairs x y).map Prod.swap).map Prod.fst =
      (validPairs x y).map Prod.snd := by simp [Function.comp]
  have hsnd : ((validPairs x y).map Prod.swap).map Prod.snd =
      (validPairs x y).map Prod.fst := by simp [Function.comp]
  have hempty : ((validPairs x y).map Prod.swap).isEmpty =
      (validPairs x y).isEmpty := by
    cases validPairs x y <;> rfl
  rw [hfst, hsnd, hempty, devProd_swap]
  refine if_congr ?_ rfl ?_
  · tauto
  · rw [mul_comm]

/-- A diagonal entry with nonzero variance is exactly 1. -/
theorem corrEntry_self (x : List (Option ℚ)) (h : devSq (validQ x) ≠ 0) :
    corrEntry x x = some 1 := by
  unfold corrEntry
  dsimp only
  rw [validPairs_self x]
  have hfst : ((validQ x).map (fun a : ℚ => (a, a))).map Prod.fst =
      validQ x := by
    rw [List.map_map]
    exact (List.map_congr_left fun a _ => rfl).trans (List.map_id _)
  have hsnd : ((validQ x).map (fun a : ℚ => (a, a))).map Prod.snd =
      validQ x := by
    rw [List.map_map]
    exact (List.map_congr_left fun a _ => rfl).trans (List.map_id _)
  rw [hfst, hsnd, devProd_diag]
  have hne : validQ x ≠ [] := by
    intro e
    exact h (by rw [e]; rfl)
  have hemp : ((validQ x).map (fun a : ℚ => (a, a))).isEmpty = false := by
    cases he : validQ x with
    | nil => exact absurd he hne
    | cons a t => rfl
  rw [if_neg (by simp [hemp, h])]
  have hcast : ((devSq (validQ x) : ℝ)) ≠ 0 := by
    exact_mod_cast h
  have hpos : (0 : ℝ) ≤ (devSq (validQ x) : ℝ) := by
    exact_mod_cast devSq_nonneg (validQ x)
  rw [Real.sqrt_mul_self hpos]
  rw [div_self hcast]

/-- A zero-variance (constant) first column makes the entry NaN. -/
theorem corrEntry_zero_var (x y : List (Option ℚ))
    (h : ∀ a ∈ validQ x, ∀ b ∈ validQ x, a = b) : corrEntry x y = none := by
  unfold corrEntry
  dsimp only
  have hconst : ∀ a ∈ (validPairs x y).map Prod.fst,
      ∀ b ∈ (validPairs x y).map Prod.fst, a = b := by
    intro a ha b hb
    obtain ⟨p, hp, rfl⟩ := List.mem_map.mp ha
    obtain ⟨q, hq, rfl⟩ := List.mem_map.mp hb
    exact h _ (validPairs_fst_mem x y p hp) _ (validPairs_fst_mem x y q hq)
  rw [if_pos (Or.inr (Or.inl (devSq_of_const _ hconst)))]

/-- C7: the correlation report ranges exactly over the numeric columns; every
entry is symmetric in its two columns; a diagonal entry for a column with
nonzero variance is exactly 1; and any entry involving a zero-variance
(constant) column is the explicit NaN `none` — never coerced to a number. -/
theorem C7_correlation (F : Frame) (x y : List (Option ℚ)) :
    (corrReport F).map Prod.fst = (numericCols F).map Prod.fst
    ∧ corrEntry x y = corrEntry y x
    ∧ (devSq (validQ x) ≠ 0 → corrEntry x x = some 1)
    ∧ ((∀ a ∈ validQ x, ∀ b ∈ validQ x, a = b) → corrEntry x y = none) := by
  refine ⟨?_, (corrEntry_symm x y).symm.trans rfl, corrEntry_self x,
    corrEntry_zero_var x y⟩
  simp [corrReport]

/-- C7 witness: the theorem applied to concrete columns — [1, 2] has nonzero
variance and correlates to 1 with itself; [5, 5] is constant and its entry
against [1, 2] is NaN. -/
theorem C7_correlation_witness :
    devSq (validQ [some 1, some 2]) ≠ 0
    ∧ corrEntry [some 1, some 2] [some 1, some 2] = some 1
    ∧ (∀ a ∈ validQ [some 5, some 5], ∀ b ∈ validQ [some 5, some 5], a = b)
    ∧ corrEntry [some 5, some 5] [some 1, some 2] = none := by
  have hv : devSq (validQ [some 1, some 2]) ≠ 0 := by
    simp [devSq, meanQ, validQ]
    norm_num
  have hc : ∀ a ∈ validQ [some (5 : ℚ), some 5],
      ∀ b ∈ validQ [some (5 : ℚ), some 5], a = b := by
    intro a ha b hb
    simp [validQ] at ha hb
    rw [ha, hb]
  exact ⟨hv,
    (C7_correlation ⟨[]⟩ [some 1, some 2] [some 1, some 2]).2.2.1 hv, hc,
    (C7_correlation ⟨[]⟩ [some 5, some 5] [some 1, some 2]).2.2.2 hc⟩

/-- The error answer built by the `except` clauses is never empty. -/
theorem errPrefix_ne_empty (e : String) : "Error in analysis: " ++ e ≠ "" := by
  intro h
  have hl := congrArg String.length h
  rw [String.length_append] at hl
  have h19 : ("Error in analysis: " : String).length = 19 := rfl
  have h0 : ("" : String).length = 0 := rfl
  omega

/-- C8: every failure of the CSV read or of the external agent run inside
`DataAgent.analyze`, and every failure of the analysis body inside
`DataAnalysisTool._run`, is caught and converted into the textual answer
"Error in analysis: " followed by the failure message — a non-empty string;
by construction of the embedding no exception escapes either function. -/
theorem C8_errors_become_answers (read_csv : String → Except String Frame)
    (agentRun : String → Except String String)
    (body : String → Frame → Except String String)
    (query p : String) (data : Frame) :
    (∀ e, read_csv p = .error e →
      analyze read_csv agentRun query (some p) = "Error in analysis: " ++ e
      ∧ analyze read_csv agentRun query (some p) ≠ "")
    ∧ (∀ f e, read_csv p = .ok f → agentRun query = .error e →
      analyze read_csv agentRun query (some p) = "Error in analysis: " ++ e
      ∧ analyze read_csv agentRun query (some p) ≠ "")
    ∧ (∀ e, agentRun query = .error e →
      analyze read_csv agentRun query none = "Error in analysis: " ++ e
      ∧ analyze read_csv agentRun query none ≠ "")
    ∧ (∀ e, body query data = .error e →
      tool_run body query data = "Error in analysis: " ++ e
      ∧ tool_run body query data ≠ "") := by
  refine ⟨?_, ?_, ?_, ?_⟩
  · intro e he
    have heq : analyze read_csv agentRun query (some p) =
        "Error in analysis: " ++ e := by
      simp only [analyze, he]
    exact ⟨heq, heq ▸ errPrefix_ne_empty e⟩
  · intro f e hf he
    have heq : analyze read_csv agentRun query (some p) =
        "Error in analysis: " ++ e := by
      simp only [analyze, hf, he]
    exact ⟨heq, heq ▸ errPrefix_ne_empty e⟩
  · intro e he
    have heq : analyze read_csv agentRun query none =
        "Error in analysis: " ++ e := by
      simp only [analyze, he]
    exact ⟨heq, heq ▸ errPrefix_ne_empty e⟩
  · intro e he
    have heq : tool_run body query data = "Error in analysis: " ++ e := by
      simp only [tool_run, he]
    exact ⟨heq, heq ▸ errPrefix_ne_empty e⟩

/-- C8 witness: the theorem applied to concrete failing collaborators. -/
theorem C8_errors_become_answers_witness :
    analyze (fun _ => .error "no such file") (fun _ => .ok "fine") "q"
      (some "data.csv") = "Error in analysis: no such file"
    ∧ analyze (fun _ => .ok ⟨[]⟩) (fun _ => .error "rate limited") "q"
        (some "data.csv") = "Error in analysis: rate limited"
    ∧ tool_run (fun _ _ => .error "describe failed") "q" ⟨[]⟩ =
        "Error in analysis: describe failed"
    ∧ tool_run (fun _ _ => .error "describe failed") "q" ⟨[]⟩ ≠ "" :=
  ⟨((C8_errors_become_answers (fun _ => .error "no such file")
      (fun _ => .ok "fine") (fun _ _ => .error "x") "q" "data.csv" ⟨[]⟩).1
      "no such file" rfl).1,
    ((C8_errors_become_answers (fun _ => .ok ⟨[]⟩)
      (fun _ => .error "rate limited") (fun _ _ => .error "x") "q" "data.csv"
      ⟨[]⟩).2.1 ⟨[]⟩ "rate limited" rfl rfl).1,
    ((C8_errors_become_answers (fun _ => .ok ⟨[]⟩)
      (fun _ => .ok "fine") (fun _ _ => .error "describe failed") "q"
      "data.csv" ⟨[]⟩).2.2.2 "describe failed" rfl).1,
    ((C8_errors_become_answers (fun _ => .ok ⟨[]⟩)
      (fun _ => .ok "fine") (fun _ _ => .error "describe failed") "q"
      "data.csv" ⟨[]⟩).2.2.2 "describe failed" rfl).2⟩

/-- C10: if the named column exists but its concatenated cell text yields no
tokens at all (for example when every value is a stopword), the word
frequencies are empty, `total_words` is 0, and the average-word-length
division raises `ZeroDivisionError` instead of returning a report. -/
theorem C10_analyze_text_column_div_zero (fmt : ℚ → String)
    (tok : String → List String) (F : Frame) (column : String) (c : Col)
    (hc : lookupCol F column = some c)
    (htok : tok (String.intercalate " " (colStrings fmt c)) = []) :
    analyze_text_column fmt tok F column = .error .zeroDivision := by
  unfold analyze_text_column
  rw [hc]
  simp [get_word_frequencies, htok, firstOccs]

/-- C10 witness: the theorem applied to a one-column table whose only value
is the stopword "the". -/
theorem C10_analyze_text_column_div_zero_witness :
    analyze_text_column (fun _ => "") exStopTok
      ⟨[("c", Col.cat [some "the"])]⟩ "c" = .error .zeroDivision :=
  C10_analyze_text_column_div_zero (fun _ => "") exStopTok
    ⟨[("c", Col.cat [some "the"])]⟩ "c" (Col.cat [some "the"]) rfl rfl

end DataSen
